import Mathlib

/-!
Verification of `animation_normal_modes_CP2K.py`.

The script is embedded shallowly: an input file is a list of already
whitespace-split lines (Python `line.split()`), each token carrying its
string and the result Python `float()` would give on it; real numbers are
modelled as rationals; the three functions `get_natoms_nvib`,
`read_cp2k_molden_file`, `generate_animation_normal_modes` and
`write_multiple_XYZ_file`, and the `__main__` loop, are translated line by
line; fallible Python operations (list indexing, `float`, numpy row
assignment) return `Except PyError`.
-/

set_option maxHeartbeats 1000000

/-- One whitespace-delimited token of an input line, as produced by Python's
`line.split()`.  `text` is the token string; `val` is the outcome of Python's
`float(text)`: `some q` when the string parses as a number, `none` when
`float` would raise `ValueError`. -/
structure Token where
  text : String
  val : Option ℚ
deriving DecidableEq

/-- A split input line. -/
abbrev Line := List Token

/-- One 3-component coordinate row. -/
abbrev Triple := ℚ × ℚ × ℚ

/-- Python membership test `s in line` on a split line. -/
def hasTok (line : Line) (s : String) : Bool :=
  line.any (fun t => t.text == s)

/-- Runtime errors the script can raise while processing data. -/
inductive PyError where
  | valueError
  | indexError
deriving DecidableEq

deriving instance DecidableEq for Except

/-- State of `get_natoms_nvib` (source lines 61-70): the three flags and the
two counters that end up in the globals `natoms`, `nvibrations`. -/
structure DiscState where
  vib : Bool
  xyz : Bool
  mod : Bool
  nvibrations : ℕ
  natoms : ℕ
deriving DecidableEq

/-- One line of the `get_natoms_nvib` loop (source lines 76-102). -/
def discStep (st : DiscState) (line : Line) : DiscState :=
  if hasTok line "[FREQ]" then
    { st with vib := true, xyz := false, mod := false }
  else if st.vib then
    if hasTok line "[FR-COORD]" then
      { st with vib := false, xyz := true, mod := false }
    else
      { st with nvibrations := st.nvibrations + 1 }
  else if st.xyz then
    if hasTok line "[FR-NORM-COORD]" then
      { st with vib := false, xyz := false, mod := true }
    else
      { st with natoms := st.natoms + 1 }
  else st

/-- `get_natoms_nvib` (source lines 45-108): returns the pair of globals
`(natoms, nvibrations)` it sets. -/
def get_natoms_nvib (lines : List Line) : ℕ × ℕ :=
  let st := lines.foldl discStep ⟨false, false, false, 0, 0⟩
  (st.natoms, st.nvibrations)

/-- State of the `read_cp2k_molden_file` loop (source lines 132-149).  The
local list `vibrations` collects the `[FREQ]` numbers (the intensities);
`modifications` collects the completed displacement blocks. -/
structure ReadState where
  vib : Bool
  xyz : Bool
  mod : Bool
  vibrations : List ℚ
  count : ℕ
  coords : List Triple
  atomtypes : List String
  mcount : ℕ
  m : List Triple
  modifications : List (List Triple)
deriving DecidableEq

/-- Initial `ReadState`: flags false, `coords` and `m` zero arrays of shape
`natoms x 3`. -/
def initState (natoms : ℕ) : ReadState :=
  ⟨false, false, false, [], 0, List.replicate natoms (0, 0, 0), [], 0,
    List.replicate natoms (0, 0, 0), []⟩

/-- Python `list(map(float, toks))`: tokens are converted left to right and
the first unparseable one raises `ValueError`. -/
def floatList : List Token → Except PyError (List ℚ)
  | [] => .ok []
  | t :: ts =>
    match t.val with
    | none => .error .valueError
    | some q =>
      match floatList ts with
      | .ok qs => .ok (q :: qs)
      | .error e => .error e

/-- Numpy row assignment `rows[i][:] = vals` on a 3-wide row: a list of
length 3 assigns componentwise, a singleton broadcasts to the whole row,
any other length raises `ValueError`. -/
def setRow (rows : List Triple) (i : ℕ) (vals : List ℚ) :
    Except PyError (List Triple) :=
  match vals with
  | [a, b, c] => .ok (rows.set i (a, b, c))
  | [a] => .ok (rows.set i (a, a, a))
  | _ => .error .valueError

/-- The tokens of a data row convert to floats and fit a 3-wide numpy row
(length 3, or a broadcastable singleton). -/
def rowVals (ts : List Token) : Bool :=
  match floatList ts with
  | .error _ => false
  | .ok vals => vals.length == 3 || vals.length == 1

/-- A line that, consumed as a data line of some active section, has a
missing or non-numeric field: its first token (the intensity position) is
absent or non-numeric, or the tokens a coordinate row reads (positions
1-3) do not form a numeric row, or the tokens a displacement row reads
(positions 0-2) do not. -/
def badDataLine (line : Line) : Bool :=
  (match line with
   | [] => true
   | t :: _ => t.val.isNone) ||
  (match line with
   | [] => true
   | _ :: rest => ! rowVals (rest.take 3)) ||
  ! rowVals (line.take 3)

/-- One line of the `read_cp2k_molden_file` loop (source lines 155-196),
with the global `natoms` passed explicitly. -/
def readStep (natoms : ℕ) (st : ReadState) (line : Line) :
    Except PyError ReadState :=
  if hasTok line "[FREQ]" then
    .ok { st with vib := true, xyz := false, mod := false }
  else if st.vib then
    if hasTok line "[FR-COORD]" then
      .ok { st with vib := false, xyz := true, mod := false }
    else
      match line with
      | [] => .error .indexError
      | t :: _ =>
        match t.val with
        | none => .error .valueError
        | some q => .ok { st with vibrations := st.vibrations ++ [q] }
  else if st.xyz then
    if hasTok line "[FR-NORM-COORD]" then
      .ok { st with vib := false, xyz := false, mod := true }
    else if st.count < natoms then
      match line with
      | [] => .error .indexError
      | lab :: rest =>
        match floatList (rest.take 3) with
        | .error e => .error e
        | .ok vals =>
          match setRow st.coords st.count vals with
          | .error e => .error e
          | .ok cs =>
            .ok { st with atomtypes := st.atomtypes ++ [lab.text],
                          coords := cs, count := st.count + 1 }
    else
      .ok { st with count := st.count + 1 }
  else if st.mod then
    if hasTok line "vibration" then
      .ok { st with
              modifications :=
                if hasTok line "1" then st.modifications
                else st.modifications ++ [st.m],
              mcount := 0,
              m := List.replicate natoms (0, 0, 0) }
    else if st.mcount < natoms then
      match floatList (line.take 3) with
      | .error e => .error e
      | .ok vals =>
        match setRow st.m st.mcount vals with
        | .error e => .error e
        | .ok mrows => .ok { st with m := mrows, mcount := st.mcount + 1 }
    else .ok st
  else .ok st

/-- The whole `for line in lines` loop: the first raised error aborts. -/
def readAll (natoms : ℕ) : ReadState → List Line → Except PyError ReadState
  | st, [] => .ok st
  | st, l :: ls =>
    match readStep natoms st l with
    | .ok st' => readAll natoms st' ls
    | .error e => .error e

/-- The record returned by `read_cp2k_molden_file` (source line 200).  The
namedtuple binds the field `intensities` to the local list `vibrations`
(the `[FREQ]` numbers) and the field `vibrations` to `modifications` (the
displacement blocks), exactly as the positional call on line 200 does. -/
structure MolFrame where
  title : String
  coords : List Triple
  atomtypes : List String
  intensities : List ℚ
  vibrations : List (List Triple)
deriving DecidableEq

/-- `read_cp2k_molden_file` (source lines 112-200). -/
def read_cp2k_molden_file (natoms : ℕ) (lines : List Line) (title : String) :
    Except PyError MolFrame :=
  match readAll natoms (initState natoms) lines with
  | .error e => .error e
  | .ok st => .ok ⟨title, st.coords, st.atomtypes, st.vibrations, st.modifications⟩

/-- The driver's parse of a file: `get_natoms_nvib` sets the global `natoms`
and then `read_cp2k_molden_file` is run with it (source lines 317-321). -/
def parse_file (lines : List Line) (title : String) : Except PyError MolFrame :=
  read_cp2k_molden_file (get_natoms_nvib lines).1 lines title

/-- Python list indexing `l[i]` for an arbitrary integer `i`: a negative
index counts from the end; out of range raises `IndexError`. -/
def pyIndex {α : Type} (l : List α) (i : ℤ) : Except PyError α :=
  let j := if i < 0 then i + (l.length : ℤ) else i
  if h : 0 ≤ j ∧ j < (l.length : ℤ) then
    .ok (l.get ⟨j.toNat, by omega⟩)
  else
    .error .indexError

/-- Python `range(a, b)` with step 1. -/
def pyRange (a b : ℤ) : List ℤ :=
  (List.range (b - a).toNat).map (fun (k : ℕ) => a + (k : ℤ))

/-- Elementwise `coords + c * vibration` over all atoms and all three
components (numpy scalar broadcasting on arrays of equal shape). -/
def addScaled (coords vibration : List Triple) (c : ℚ) : List Triple :=
  coords.zipWith
    (fun p q => (p.1 + c * q.1, p.2.1 + c * q.2.1, p.2.2 + c * q.2.2))
    vibration

/-- The record returned by `generate_animation_normal_modes`
(source line 235). -/
structure AnimTraj where
  title : String
  coords : List (List Triple)
  atomtypes : List String
deriving DecidableEq

/-- `generate_animation_normal_modes` (source lines 204-235): index the
requested mode, then one geometry `coords + m * 0.1 * vibration` for each
`m in range(-n, n, 1)`. -/
def generate_animation_normal_modes (tup : MolFrame) (vib : ℤ) (n : ℤ) :
    Except PyError AnimTraj :=
  match pyIndex tup.vibrations vib with
  | .error e => .error e
  | .ok vibration =>
    .ok ⟨"Vibration " ++ toString (vib + 1),
         (pyRange (-n) n).map
           (fun (mm : ℤ) => addScaled tup.coords vibration ((mm : ℚ) * (1 / 10))),
         tup.atomtypes⟩

/-- One emitted line of the output XYZ file, kept structured: the atom-count
line, the title line, and an atom line carrying the label and the three
already-scaled components that `%.12g` renders. -/
inductive XYZLine where
  | countLine (n : ℕ)
  | titleLine (s : String)
  | atomLine (label : String) (x y z : ℚ)
deriving DecidableEq

/-- Correction factor `f = 1.3/2.5` (source line 252). -/
def scaleF : ℚ := (13 / 10) / (25 / 10)

/-- Python `zip(rows, cycle(labels))` from cycle position `j` on: for a
nonempty label list `cycle` yields `labels[j % len(labels)]` at position
`j`; the empty-label case (where `zip` stops at once) is handled at the
call site. -/
def cycZip (labels : List String) : List Triple → ℕ → List (Triple × String)
  | [], _ => []
  | r :: rs, j => (r, labels.getD (j % labels.length) "") :: cycZip labels rs (j + 1)

/-- `write_multiple_XYZ_file` (source lines 239-266), modelled as the list
of lines written: for each structure `s` a count line `s.size / 3` (with
`s.size = 3 * rows`), the title line, then one line per pair produced by
`zip(s.reshape(-1, 3), cycle(atomtypes))`, each component multiplied by
the correction factor. -/
def write_multiple_XYZ_file (tup : AnimTraj) : List XYZLine :=
  tup.coords.foldl
    (fun acc s =>
      acc ++ XYZLine.countLine ((3 * s.length) / 3) :: XYZLine.titleLine tup.title ::
        (if tup.atomtypes.isEmpty then [] else cycZip tup.atomtypes s 0).map
          (fun p =>
            XYZLine.atomLine p.2 (p.1.1 * scaleF) (p.1.2.1 * scaleF) (p.1.2.2 * scaleF)))
    []

/-- The `for i in range(nvibrations)` loop of `__main__` (source lines
326-328), unrolled by the iteration count: each iteration animates mode `0`
with half-width `frames` and writes the result. -/
def driver_loop (nmodes : MolFrame) (frames : ℤ) :
    ℕ → Except PyError (List (List XYZLine))
  | 0 => .ok []
  | k + 1 =>
    match generate_animation_normal_modes nmodes 0 frames with
    | .error e => .error e
    | .ok animation =>
      match driver_loop nmodes frames k with
      | .error e => .error e
      | .ok rest => .ok (write_multiple_XYZ_file animation :: rest)

/-- The `__main__` body after argument parsing (source lines 311-328): the
contents of the `nvibrations` output files, in loop order. -/
def driver_outputs (lines : List Line) (frames : ℤ) :
    Except PyError (List (List XYZLine)) :=
  match parse_file lines "NModes" with
  | .error e => .error e
  | .ok nmodes => driver_loop nmodes frames (get_natoms_nvib lines).2

/-- Structured content of a well-formed CP2K MOLDEN frequency file: the
`[FREQ]` numbers, the atoms (label and coordinate row), and the
`[FR-NORM-COORD]` blocks, each a header mode-number token text together
with its displacement rows. -/
structure MoldenData where
  freqs : List ℚ
  atoms : List (String × Triple)
  blocks : List (String × List Triple)
deriving DecidableEq

/-- A numeric data token; its text is a float literal, which never equals a
section marker or the words tested by membership, so it is kept as "". -/
def fTok (q : ℚ) : Token := ⟨"", some q⟩

/-- A word token (marker, label or header word): not float-parseable as far
as the state machine ever observes. -/
def wTok (s : String) : Token := ⟨s, none⟩

/-- A `[FREQ]` section data line: one intensity. -/
def freqLine (q : ℚ) : Line := [fTok q]

/-- A `[FR-COORD]` section data line: label then three coordinates. -/
def coordLine (a : String × Triple) : Line :=
  [wTok a.1, fTok a.2.1, fTok a.2.2.1, fTok a.2.2.2]

/-- A displacement data line: three components. -/
def dispLine (r : Triple) : Line := [fTok r.1, fTok r.2.1, fTok r.2.2]

/-- A block header line `vibration <k>`. -/
def vibHeader (h : String) : Line := [wTok "vibration", wTok h]

/-- The lines of one `[FR-NORM-COORD]` block: header then rows. -/
def blockLines (b : String × List Triple) : List Line :=
  vibHeader b.1 :: b.2.map dispLine

/-- Rendering of a structured file into its split lines, in CP2K order. -/
def mkMoldenFile (d : MoldenData) : List Line :=
  ([wTok "[FREQ]"] :: d.freqs.map freqLine) ++
  ([wTok "[FR-COORD]"] :: d.atoms.map coordLine) ++
  ([wTok "[FR-NORM-COORD]"] :: (d.blocks.map blockLines).flatten)

/-- Recognises the three section markers. -/
def isMarker (s : String) : Bool :=
  s == "[FREQ]" || s == "[FR-COORD]" || s == "[FR-NORM-COORD]"

/-- The displacement rows of the blocks, in file order. -/
def blockRows (d : MoldenData) : List (List Triple) :=
  d.blocks.map (fun b => b.2)

/-- Well-formedness of a structured file, per the CP2K convention: every
block has one row per atom, no label or header collides with a section
marker, the blocks are headed `vibration 1`, `vibration 2`, ... so exactly
the first header carries the token `1`, and there is one block per
reported frequency. -/
def WellFormed (d : MoldenData) : Prop :=
  (∀ b ∈ d.blocks, b.2.length = d.atoms.length) ∧
  (∀ a ∈ d.atoms, isMarker a.1 = false) ∧
  (∀ b ∈ d.blocks, isMarker b.1 = false) ∧
  (∀ b ∈ d.blocks.take 1, b.1 = "1") ∧
  (∀ b ∈ d.blocks.tail, b.1 ≠ "1") ∧
  d.blocks.length = d.freqs.length

instance (d : MoldenData) : Decidable (WellFormed d) := by
  unfold WellFormed; infer_instance

/-- The payload of an `Except`-valued output list, for closed statements. -/
def exOuts (e : Except PyError (List (List XYZLine))) : List (List XYZLine) :=
  match e with
  | .ok l => l
  | .error _ => []

/-- The displacement list of an `Except`-valued frame, for closed statements. -/
def exVibs (e : Except PyError MolFrame) : List (List Triple) :=
  match e with
  | .ok f => f.vibrations
  | .error _ => []

/-- The intensity list of an `Except`-valued frame, for closed statements. -/
def exInts (e : Except PyError MolFrame) : List ℚ :=
  match e with
  | .ok f => f.intensities
  | .error _ => []

/-- A concrete two-mode, one-atom structured file used as test input. -/
def dataA : MoldenData :=
  ⟨[5, 6], [("C", (1, 0, 0))], [("1", [(1, 2, 3)]), ("2", [(4, 5, 6)])]⟩

/-- A concrete one-mode, one-atom parsed frame used as test input. -/
def frameA : MolFrame := ⟨"t", [(0, 0, 0)], ["C"], [5], [[(1, 0, 0)]]⟩

/-- A concrete one-geometry trajectory used as test input. -/
def trajA : AnimTraj := ⟨"T", [[(1, 2, 3)]], ["C"]⟩

/-- Transcription of the spec's wording for one written record (spec §4.3):
a line with the atom count, a line with the title, then one line per atom
with the label (cycling through the label list) and the three scaled
components. -/
def writeRecordSpec (title : String) (labels : List String) (s : List Triple) :
    List XYZLine :=
  XYZLine.countLine s.length :: XYZLine.titleLine title ::
    (List.range s.length).map (fun j =>
      let r := s.getD j (0, 0, 0)
      XYZLine.atomLine (labels.getD (j % labels.length) "")
        (r.1 * scaleF) (r.2.1 * scaleF) (r.2.2 * scaleF))

/-! ### Token membership facts -/

lemma hasTok_cons (t : Token) (l : Line) (s : String) :
    hasTok (t :: l) s = (t.text == s || hasTok l s) := by
  simp [hasTok]

lemma hasTok_nil (s : String) : hasTok [] s = false := rfl

lemma hasTok_freqLine (q : ℚ) (s : String) (hs : ("" == s) = false) :
    hasTok (freqLine q) s = false := by
  simp [freqLine, fTok, hasTok, hs]

lemma hasTok_dispLine (r : Triple) (s : String) (hs : ("" == s) = false) :
    hasTok (dispLine r) s = false := by
  simp [dispLine, fTok, hasTok, hs]

lemma hasTok_coordLine (a : String × Triple) (s : String) (hs : ("" == s) = false) :
    hasTok (coordLine a) s = (a.1 == s) := by
  simp [coordLine, fTok, wTok, hasTok, hs]

lemma hasTok_vibHeader (h s : String) :
    hasTok (vibHeader h) s = (("vibration" == s) || (h == s)) := by
  simp [vibHeader, wTok, hasTok]

lemma isMarker_eqs {m : String} (h : isMarker m = false) :
    (m == "[FREQ]") = false ∧ (m == "[FR-COORD]") = false ∧
    (m == "[FR-NORM-COORD]") = false := by
  simp [isMarker] at h
  simp [h.1.1, h.1.2, h.2]

/-! ### Discovery pass (`get_natoms_nvib`) on a rendered file -/

lemma discFreq (qs : List ℚ) (md : Bool) (nv na : ℕ) :
    (qs.map freqLine).foldl discStep ⟨true, false, md, nv, na⟩ =
      ⟨true, false, md, nv + qs.length, na⟩ := by
  induction qs generalizing nv with
  | nil => simp
  | cons q qs ih =>
    have hstep : discStep ⟨true, false, md, nv, na⟩ (freqLine q) =
        ⟨true, false, md, nv + 1, na⟩ := by
      simp [discStep, hasTok_freqLine]
    have harr : nv + 1 + qs.length = nv + (qs.length + 1) := by omega
    simp only [List.map_cons, List.foldl_cons, hstep, ih, List.length_cons, harr]

lemma discCoord (as : List (String × Triple)) (md : Bool) (nv na : ℕ)
    (hm : ∀ a ∈ as, isMarker a.1 = false) :
    (as.map coordLine).foldl discStep ⟨false, true, md, nv, na⟩ =
      ⟨false, true, md, nv, na + as.length⟩ := by
  induction as generalizing na with
  | nil => simp
  | cons a as ih =>
    have h1 := isMarker_eqs (hm a (by simp))
    have hstep : discStep ⟨false, true, md, nv, na⟩ (coordLine a) =
        ⟨false, true, md, nv, na + 1⟩ := by
      simp [discStep, hasTok_coordLine, h1.1, h1.2.2]
    have harr : na + 1 + as.length = na + (as.length + 1) := by omega
    simp only [List.map_cons, List.foldl_cons, hstep,
      ih (na + 1) (fun b hb => hm b (List.mem_cons_of_mem _ hb)),
      List.length_cons, harr]

lemma discInert (ls : List Line) (md : Bool) (nv na : ℕ)
    (hf : ∀ l ∈ ls, hasTok l "[FREQ]" = false) :
    ls.foldl discStep ⟨false, false, md, nv, na⟩ = ⟨false, false, md, nv, na⟩ := by
  induction ls with
  | nil => simp
  | cons l ls ih =>
    have hstep : discStep ⟨false, false, md, nv, na⟩ l = ⟨false, false, md, nv, na⟩ := by
      simp [discStep, hf l (by simp)]
    simp only [List.foldl_cons, hstep, ih (fun l' hl' => hf l' (by simp [hl']))]

lemma blockLines_no_freq (b : String × List Triple) (hm : isMarker b.1 = false) :
    ∀ l ∈ blockLines b, hasTok l "[FREQ]" = false := by
  intro l hl
  rcases List.mem_cons.1 hl with h | h
  · subst h
    simp [hasTok_vibHeader, (isMarker_eqs hm).1]
  · rcases List.mem_map.1 h with ⟨r, _, rfl⟩
    exact hasTok_dispLine r _ (by decide)

/-- Characterisation of the discovery pass: it counts the `[FREQ]` data lines
and the `[FR-COORD]` data lines of a rendered file. -/
lemma get_natoms_nvib_mk (d : MoldenData) (hwf : WellFormed d) :
    get_natoms_nvib (mkMoldenFile d) = (d.atoms.length, d.freqs.length) := by
  obtain ⟨hlen, hatm, hblk, hone, hrest, hcnt⟩ := hwf
  unfold get_natoms_nvib mkMoldenFile
  rw [List.foldl_append, List.foldl_append]
  rw [List.foldl_cons, List.foldl_cons, List.foldl_cons]
  have hfreqmark : discStep ⟨false, false, false, 0, 0⟩ [wTok "[FREQ]"] =
      ⟨true, false, false, 0, 0⟩ := by
    simp [discStep, hasTok_cons, hasTok_nil, wTok]
  rw [hfreqmark, discFreq]
  have hcoordmark : discStep ⟨true, false, false, 0 + d.freqs.length, 0⟩
      [wTok "[FR-COORD]"] = ⟨false, true, false, d.freqs.length, 0⟩ := by
    simp [discStep, hasTok_cons, hasTok_nil, wTok]
  rw [hcoordmark, discCoord _ _ _ _ hatm]
  have hnormmark : discStep ⟨false, true, false, d.freqs.length, 0 + d.atoms.length⟩
      [wTok "[FR-NORM-COORD]"] = ⟨false, false, true, d.freqs.length, d.atoms.length⟩ := by
    simp [discStep, hasTok_cons, hasTok_nil, wTok]
  rw [hnormmark, discInert]
  · intro l hl
    rcases List.mem_flatten.1 hl with ⟨ls, hls, hlin⟩
    rcases List.mem_map.1 hls with ⟨b, hb, rfl⟩
    exact blockLines_no_freq b (hblk b hb) l hlin

/-! ### The main parse loop (`read_cp2k_molden_file`) on a rendered file -/

lemma readAll_append_ok (na : ℕ) (l1 l2 : List Line) (st st' : ReadState)
    (h : readAll na st l1 = .ok st') :
    readAll na st (l1 ++ l2) = readAll na st' l2 := by
  induction l1 generalizing st with
  | nil =>
    simp [readAll] at h
    simp [h]
  | cons l ls ih =>
    simp only [readAll] at h ⊢
    cases hs : readStep na st l with
    | ok st1 => rw [hs] at h; simp only [List.cons_append]; exact ih st1 h
    | error e => rw [hs] at h; cases h

lemma set_at_length (done : List Triple) (w v : Triple) (tail : List Triple) :
    (done ++ w :: tail).set done.length v = done ++ v :: tail := by
  induction done with
  | nil => simp
  | cons a as ih => simp [List.set, ih]

lemma readFreq (na : ℕ) (qs : List ℚ) (x md : Bool) (vibs : List ℚ) (c : ℕ)
    (co : List Triple) (ats : List String) (mc : ℕ) (mm : List Triple)
    (mods : List (List Triple)) :
    readAll na ⟨true, x, md, vibs, c, co, ats, mc, mm, mods⟩ (qs.map freqLine) =
      .ok ⟨true, x, md, vibs ++ qs, c, co, ats, mc, mm, mods⟩ := by
  induction qs generalizing vibs with
  | nil => simp [readAll]
  | cons q qs ih =>
    have hstep : readStep na ⟨true, x, md, vibs, c, co, ats, mc, mm, mods⟩
        (freqLine q) = .ok ⟨true, x, md, vibs ++ [q], c, co, ats, mc, mm, mods⟩ := by
      simp [readStep, hasTok, freqLine, fTok]
    simp only [List.map_cons, readAll, hstep, ih]
    simp

lemma readCoord (na : ℕ) (as : List (String × Triple)) (done : List Triple)
    (md : Bool) (vibs : List ℚ) (ats : List String) (mc : ℕ) (mm : List Triple)
    (mods : List (List Triple))
    (hm : ∀ a ∈ as, isMarker a.1 = false)
    (hna : na = done.length + as.length) :
    readAll na
      ⟨false, true, md, vibs, done.length,
        done ++ List.replicate as.length (0, 0, 0), ats, mc, mm, mods⟩
      (as.map coordLine) =
    .ok ⟨false, true, md, vibs, na, done ++ as.map (fun a => a.2),
         ats ++ as.map (fun a => a.1), mc, mm, mods⟩ := by
  induction as generalizing done ats with
  | nil => simp [readAll, hna]
  | cons a as ih =>
    have h1 := isMarker_eqs (hm a (by simp))
    have hlt : done.length < na := by rw [hna, List.length_cons]; omega
    have hstep : readStep na
        ⟨false, true, md, vibs, done.length,
          done ++ List.replicate (a :: as).length (0, 0, 0), ats, mc, mm, mods⟩
        (coordLine a) =
        .ok ⟨false, true, md, vibs, done.length + 1,
             done ++ a.2 :: List.replicate as.length (0, 0, 0),
             ats ++ [a.1], mc, mm, mods⟩ := by
      simp only [readStep, coordLine, fTok, wTok, hasTok_cons, hasTok_nil]
      simp only [h1.1, h1.2.2, List.length_cons, List.replicate_succ]
      simp only [floatList, setRow, hlt, set_at_length, List.take]
      simp [hlt, set_at_length]
    simp only [List.map_cons, readAll, hstep]
    have hrw : done ++ a.2 :: List.replicate as.length ((0 : ℚ), (0 : ℚ), (0 : ℚ)) =
        (done ++ [a.2]) ++ List.replicate as.length (0, 0, 0) := by simp
    have hln : done.length + 1 = (done ++ [a.2]).length := by simp
    rw [hrw, hln, ih (done ++ [a.2]) (ats ++ [a.1])
      (fun b hb => hm b (List.mem_cons_of_mem _ hb))
      (by simp at hna ⊢; omega)]
    simp [hna]

lemma readRows (na : ℕ) (rs : List Triple) (done : List Triple)
    (vibs : List ℚ) (c : ℕ) (co : List Triple) (ats : List String)
    (mods : List (List Triple))
    (hna : na = done.length + rs.length) :
    readAll na
      ⟨false, false, true, vibs, c, co, ats, done.length,
        done ++ List.replicate rs.length (0, 0, 0), mods⟩
      (rs.map dispLine) =
    .ok ⟨false, false, true, vibs, c, co, ats, na, done ++ rs, mods⟩ := by
  induction rs generalizing done with
  | nil => simp [readAll, hna]
  | cons r rs ih =>
    have hlt : done.length < na := by rw [hna, List.length_cons]; omega
    have hstep : readStep na
        ⟨false, false, true, vibs, c, co, ats, done.length,
          done ++ List.replicate (r :: rs).length (0, 0, 0), mods⟩
        (dispLine r) =
        .ok ⟨false, false, true, vibs, c, co, ats, done.length + 1,
             done ++ r :: List.replicate rs.length (0, 0, 0), mods⟩ := by
      simp only [readStep, dispLine, fTok, hasTok_cons, hasTok_nil,
        List.length_cons, List.replicate_succ]
      simp [floatList, setRow, hlt, set_at_length]
    simp only [List.map_cons, readAll, hstep]
    have hrw : done ++ r :: List.replicate rs.length ((0 : ℚ), (0 : ℚ), (0 : ℚ)) =
        (done ++ [r]) ++ List.replicate rs.length (0, 0, 0) := by simp
    have hln : done.length + 1 = (done ++ [r]).length := by simp
    rw [hrw, hln, ih (done ++ [r]) (by simp at hna ⊢; omega)]
    simp

lemma readCoordAll (na : ℕ) (as : List (String × Triple)) (md : Bool)
    (vibs : List ℚ) (ats : List String) (mc : ℕ) (mm : List Triple)
    (mods : List (List Triple))
    (hm : ∀ a ∈ as, isMarker a.1 = false) (hna : na = as.length) :
    readAll na
      ⟨false, true, md, vibs, 0, List.replicate na (0, 0, 0), ats, mc, mm, mods⟩
      (as.map coordLine) =
    .ok ⟨false, true, md, vibs, na, as.map (fun a => a.2),
         ats ++ as.map (fun a => a.1), mc, mm, mods⟩ := by
  have h := readCoord na as [] md vibs ats mc mm mods hm (by simp [hna])
  simpa [hna] using h

lemma readRowsAll (na : ℕ) (rs : List Triple) (vibs : List ℚ) (c : ℕ)
    (co : List Triple) (ats : List String) (mods : List (List Triple))
    (hna : na = rs.length) :
    readAll na
      ⟨false, false, true, vibs, c, co, ats, 0, List.replicate na (0, 0, 0), mods⟩
      (rs.map dispLine) =
    .ok ⟨false, false, true, vibs, c, co, ats, na, rs, mods⟩ := by
  have h := readRows na rs [] vibs c co ats mods (by simp [hna])
  simpa [hna] using h

lemma readBlocks (na : ℕ) (bs : List (String × List Triple)) (vibs : List ℚ)
    (c : ℕ) (co : List Triple) (ats : List String) (mc : ℕ) (mm : List Triple)
    (mods : List (List Triple))
    (hbs : ∀ b ∈ bs, isMarker b.1 = false ∧ b.1 ≠ "1" ∧ b.2.length = na) :
    ∃ mm2 mc2,
      readAll na ⟨false, false, true, vibs, c, co, ats, mc, mm, mods⟩
        ((bs.map blockLines).flatten) =
      .ok ⟨false, false, true, vibs, c, co, ats, mc2, mm2,
           mods ++ (mm :: bs.map (fun b => b.2)).dropLast⟩ := by
  induction bs generalizing mc mm mods with
  | nil => exact ⟨mm, mc, by simp [readAll]⟩
  | cons b bs ih =>
    obtain ⟨hmark, hne1, hlen⟩ := hbs b (by simp)
    have hmarks := isMarker_eqs hmark
    have hne1' : (b.1 == "1") = false := beq_eq_false_iff_ne.mpr hne1
    have hstep : readStep na ⟨false, false, true, vibs, c, co, ats, mc, mm, mods⟩
        (vibHeader b.1) =
        .ok ⟨false, false, true, vibs, c, co, ats, 0,
             List.replicate na (0, 0, 0), mods ++ [mm]⟩ := by
      simp only [readStep, hasTok_vibHeader, hmarks.1, hne1']
      simp
    obtain ⟨mm2, mc2, hrec⟩ := ih na b.2 (mods ++ [mm])
      (fun b' hb' => hbs b' (List.mem_cons_of_mem _ hb'))
    refine ⟨mm2, mc2, ?_⟩
    simp only [List.map_cons, List.flatten_cons, blockLines, List.cons_append,
      List.append_eq, readAll, hstep]
    rw [readAll_append_ok _ _ _ _ _ (readRowsAll na b.2 vibs c co ats _ hlen.symm),
      hrec]
    simp [List.append_assoc]

/-- Full characterisation of `read_cp2k_molden_file` on a rendered
well-formed file: intensities are the `[FREQ]` numbers, coordinates and
labels are the `[FR-COORD]` data, and the displacement list is the list of
block row-arrays with its LAST element dropped (each block is only appended
when the header of the next one is read, and the `vibration 1` header
appends nothing). -/
lemma read_mk (d : MoldenData) (hwf : WellFormed d) (t : String) :
    read_cp2k_molden_file d.atoms.length (mkMoldenFile d) t =
      .ok ⟨t, d.atoms.map (fun a => a.2), d.atoms.map (fun a => a.1), d.freqs,
           (blockRows d).dropLast⟩ := by
  obtain ⟨hlen, hatm, hblk, hone, hrest, hcnt⟩ := hwf
  unfold read_cp2k_molden_file mkMoldenFile
  have h0 : readStep d.atoms.length (initState d.atoms.length) [wTok "[FREQ]"] =
      .ok ⟨true, false, false, [], 0, List.replicate d.atoms.length (0, 0, 0), [],
           0, List.replicate d.atoms.length (0, 0, 0), []⟩ := by
    simp [readStep, hasTok, wTok, initState]
  have h1 : readAll d.atoms.length (initState d.atoms.length)
      ([wTok "[FREQ]"] :: d.freqs.map freqLine) =
      .ok ⟨true, false, false, d.freqs, 0, List.replicate d.atoms.length (0, 0, 0),
           [], 0, List.replicate d.atoms.length (0, 0, 0), []⟩ := by
    simp only [readAll, h0, readFreq]
    simp [readFreq]
  rw [List.append_assoc, readAll_append_ok _ _ _ _ _ h1]
  have h2 : readStep d.atoms.length
      ⟨true, false, false, d.freqs, 0, List.replicate d.atoms.length (0, 0, 0),
       [], 0, List.replicate d.atoms.length (0, 0, 0), []⟩ [wTok "[FR-COORD]"] =
      .ok ⟨false, true, false, d.freqs, 0, List.replicate d.atoms.length (0, 0, 0),
           [], 0, List.replicate d.atoms.length (0, 0, 0), []⟩ := by
    simp [readStep, hasTok, wTok]
  have h3 : readAll d.atoms.length
      ⟨true, false, false, d.freqs, 0, List.replicate d.atoms.length (0, 0, 0),
       [], 0, List.replicate d.atoms.length (0, 0, 0), []⟩
      ([wTok "[FR-COORD]"] :: d.atoms.map coordLine) =
      .ok ⟨false, true, false, d.freqs, d.atoms.length,
           d.atoms.map (fun a => a.2), d.atoms.map (fun a => a.1), 0,
           List.replicate d.atoms.length (0, 0, 0), []⟩ := by
    simp only [readAll, h2]
    have h := readCoordAll d.atoms.length d.atoms false d.freqs [] 0
      (List.replicate d.atoms.length (0, 0, 0)) [] hatm rfl
    simpa using h
  rw [readAll_append_ok _ _ _ _ _ h3]
  have h4 : readStep d.atoms.length
      ⟨false, true, false, d.freqs, d.atoms.length, d.atoms.map (fun a => a.2),
       d.atoms.map (fun a => a.1), 0, List.replicate d.atoms.length (0, 0, 0), []⟩
      [wTok "[FR-NORM-COORD]"] =
      .ok ⟨false, false, true, d.freqs, d.atoms.length,
           d.atoms.map (fun a => a.2), d.atoms.map (fun a => a.1), 0,
           List.replicate d.atoms.length (0, 0, 0), []⟩ := by
    simp [readStep, hasTok, wTok]
  simp only [readAll, h4]
  cases hb : d.blocks with
  | nil =>
    simp [readAll, blockRows, hb]
  | cons b0 bs =>
    have hone0 : b0.1 = "1" := hone b0 (by simp [hb])
    have hmark0 := isMarker_eqs (hblk b0 (by simp [hb]))
    have hstep0 : readStep d.atoms.length
        ⟨false, false, true, d.freqs, d.atoms.length,
         d.atoms.map (fun a => a.2), d.atoms.map (fun a => a.1), 0,
         List.replicate d.atoms.length (0, 0, 0), []⟩ (vibHeader b0.1) =
        .ok ⟨false, false, true, d.freqs, d.atoms.length,
             d.atoms.map (fun a => a.2), d.atoms.map (fun a => a.1), 0,
             List.replicate d.atoms.length (0, 0, 0), []⟩ := by
      simp only [readStep, hasTok_vibHeader, hmark0.1, hone0]
      simp
    obtain ⟨mm2, mc2, hrec⟩ := readBlocks d.atoms.length bs d.freqs
      d.atoms.length (d.atoms.map (fun a => a.2)) (d.atoms.map (fun a => a.1))
      d.atoms.length b0.2 []
      (fun b' hb' => ⟨hblk b' (by simp [hb, hb']),
        hrest b' (by simp [hb, hb']),
        hlen b' (by simp [hb, hb'])⟩)
    simp only [hb, List.map_cons, List.flatten_cons, blockLines, List.cons_append,
      List.append_eq, readAll, hstep0]
    rw [readAll_append_ok _ _ _ _ _
      (readRowsAll d.atoms.length b0.2 d.freqs d.atoms.length _ _ []
        (hlen b0 (by simp [hb])).symm), hrec]
    simp [blockRows, hb]

/-- The composed driver parse on a rendered well-formed file. -/
lemma parse_mk (d : MoldenData) (hwf : WellFormed d) (t : String) :
    parse_file (mkMoldenFile d) t =
      .ok ⟨t, d.atoms.map (fun a => a.2), d.atoms.map (fun a => a.1), d.freqs,
           (blockRows d).dropLast⟩ := by
  unfold parse_file
  rw [get_natoms_nvib_mk d hwf]
  exact read_mk d hwf t

/-- A parse run that never meets a `[FREQ]` marker leaves the initial state
untouched: all flags stay false and every line is skipped. -/
lemma readAll_no_freq (na : ℕ) (lines : List Line) (st : ReadState)
    (hv : st.vib = false) (hx : st.xyz = false) (hm : st.mod = false)
    (hf : ∀ l ∈ lines, hasTok l "[FREQ]" = false) :
    readAll na st lines = .ok st := by
  induction lines with
  | nil => simp [readAll]
  | cons l ls ih =>
    have hstep : readStep na st l = .ok st := by
      simp [readStep, hf l (by simp), hv, hx, hm]
    simp only [readAll, hstep]
    exact ih (fun l' hl' => hf l' (by simp [hl']))

/-! ### Python `range` and list indexing -/

lemma pyRange_length (a b : ℤ) : (pyRange a b).length = (b - a).toNat := by
  unfold pyRange
  rw [List.length_map, List.length_range]

lemma pyRange_getElem? (a b : ℤ) (k : ℕ) (hk : k < (b - a).toNat) :
    (pyRange a b)[k]? = some (a + k) := by
  unfold pyRange
  rw [List.getElem?_map, List.getElem?_range hk]
  rfl

lemma pyIndex_nonneg {α : Type} (l : List α) (i : ℤ) (v : α)
    (h0 : 0 ≤ i) (hv : l[i.toNat]? = some v) :
    pyIndex l i = .ok v := by
  obtain ⟨hlt, hget⟩ := List.getElem?_eq_some_iff.1 hv
  unfold pyIndex
  have hni : ¬ i < 0 := by omega
  simp only [hni, if_false]
  rw [dif_pos ⟨h0, by omega⟩]
  simp [List.get_eq_getElem, hget]

lemma setRow_error_shape (rows : List Triple) (i : ℕ) (vals : List ℚ)
    (e : PyError) (h : setRow rows i vals = .error e) :
    (vals.length == 3 || vals.length == 1) = false := by
  match vals with
  | [] => rfl
  | [a] => exact absurd h (by simp [setRow])
  | [a, b] => rfl
  | [a, b, c] => exact absurd h (by simp [setRow])
  | a :: b :: c :: d :: rest =>
    simp only [List.length_cons, Bool.or_eq_false_iff, beq_eq_false_iff_ne]
    omega

/-- `readStep` can only fail on a line it consumed as a data line of an
active section whose fields are missing or non-numeric. -/
lemma readStep_error_bad (na : ℕ) (st : ReadState) (line : Line) (e : PyError)
    (h : readStep na st line = .error e) : badDataLine line = true := by
  unfold readStep at h
  split_ifs at h
  · -- intensity line: empty or non-numeric first token
    split at h
    · rfl
    · split at h
      · rename_i htv
        simp [badDataLine, htv]
      · exact Except.noConfusion h
  · -- coordinate line: empty, or tokens 1-3 not a numeric row
    split at h
    · rfl
    · split at h
      · rename_i hfl
        simp [badDataLine, rowVals, hfl]
      · split at h
        · rename_i vals hfl x2 e3 hsr
          have hsh := setRow_error_shape st.coords st.count vals e3 hsr
          simp [badDataLine, rowVals, hfl, hsh]
        · exact Except.noConfusion h
  · -- displacement line: tokens 0-2 not a numeric row
    split at h
    · rename_i hfl
      simp [badDataLine, rowVals, hfl]
    · split at h
      · rename_i vals hfl x2 e3 hsr
        have hsh := setRow_error_shape st.m st.mcount vals e3 hsr
        simp [badDataLine, rowVals, hfl, hsh]
      · exact Except.noConfusion h

/-- A failing parse run pinpoints a bad data line among the input lines. -/
lemma readAll_error_bad (na : ℕ) (lines : List Line) (st : ReadState)
    (e : PyError) (h : readAll na st lines = .error e) :
    ∃ l ∈ lines, badDataLine l = true := by
  induction lines generalizing st with
  | nil => simp [readAll] at h
  | cons l ls ih =>
    simp only [readAll] at h
    cases hs : readStep na st l with
    | error e2 =>
      exact ⟨l, by simp, readStep_error_bad na st l e2 hs⟩
    | ok st2 =>
      rw [hs] at h
      obtain ⟨l2, hl2, hb⟩ := ih st2 h
      exact ⟨l2, by simp [hl2], hb⟩

/-! ### The writer -/

lemma foldl_append_eq_flatten {α β : Type} (f : α → List β) (l : List α)
    (acc : List β) :
    l.foldl (fun a s => a ++ f s) acc = acc ++ (l.map f).flatten := by
  induction l generalizing acc with
  | nil => simp
  | cons x xs ih => simp [ih, List.append_assoc]

lemma cycZip_spec (labels : List String) (s : List Triple) (j : ℕ) :
    cycZip labels s j = (List.range s.length).map
      (fun k => (s.getD k (0, 0, 0), labels.getD ((j + k) % labels.length) "")) := by
  induction s generalizing j with
  | nil => simp [cycZip]
  | cons r rs ih =>
    rw [List.length_cons, List.range_succ_eq_map, List.map_cons]
    simp only [cycZip]
    congr 1
    rw [ih (j + 1), List.map_map]
    apply List.map_congr_left
    intro k _
    have harith : j + (k + 1) = j + 1 + k := by omega
    simp only [Function.comp_apply, Nat.succ_eq_add_one, List.getD_cons_succ,
      harith]

/-- The writer emits, for every geometry, exactly the record described by
the spec: count line, title line, then one atom line per row with the
labels taken cyclically and each component scaled. -/
lemma write_eq_spec (tup : AnimTraj) (h : tup.atomtypes ≠ []) :
    write_multiple_XYZ_file tup =
      (tup.coords.map (writeRecordSpec tup.title tup.atomtypes)).flatten := by
  unfold write_multiple_XYZ_file
  rw [foldl_append_eq_flatten
    (fun s => XYZLine.countLine ((3 * s.length) / 3) :: XYZLine.titleLine tup.title ::
      (if tup.atomtypes.isEmpty then [] else cycZip tup.atomtypes s 0).map
        (fun p => XYZLine.atomLine p.2 (p.1.1 * scaleF) (p.1.2.1 * scaleF)
          (p.1.2.2 * scaleF)))]
  rw [List.nil_append]
  congr 1
  apply List.map_congr_left
  intro s _
  have hemp : tup.atomtypes.isEmpty = false := by
    cases hc : tup.atomtypes with
    | nil => exact absurd hc h
    | cons a as => simp
  unfold writeRecordSpec
  rw [hemp]
  simp only [Bool.false_eq_true, if_false, cycZip_spec, List.map_map]
  have hcnt : 3 * s.length / 3 = s.length :=
    Nat.mul_div_cancel_left s.length (by norm_num)
  rw [hcnt]
  congr 1
  congr 1
  apply List.map_congr_left
  intro k _
  simp [Function.comp]

/-! ### The driver loop -/

lemma driver_loop_mem (nmodes : MolFrame) (frames : ℤ) (k : ℕ)
    (outs : List (List XYZLine))
    (h : driver_loop nmodes frames k = .ok outs) :
    ∀ o ∈ outs, ∃ anim,
      generate_animation_normal_modes nmodes 0 frames = .ok anim ∧
      o = write_multiple_XYZ_file anim := by
  induction k generalizing outs with
  | zero =>
    simp only [driver_loop, Except.ok.injEq] at h
    subst h
    simp
  | succ k ih =>
    simp only [driver_loop] at h
    cases hg : generate_animation_normal_modes nmodes 0 frames with
    | error e => rw [hg] at h; cases h
    | ok anim =>
      rw [hg] at h
      cases hr : driver_loop nmodes frames k with
      | error e => rw [hr] at h; cases h
      | ok rest =>
        rw [hr] at h
        cases h
        intro o ho
        rcases List.mem_cons.1 ho with rfl | ho
        · exact ⟨anim, rfl, rfl⟩
        · rcases ih rest hr o ho with ⟨anim2, hg2, ho2⟩
          rw [hg] at hg2
          exact ⟨anim, rfl, by cases hg2; exact ho2⟩

lemma driver_loop_length (nmodes : MolFrame) (frames : ℤ) (k : ℕ)
    (outs : List (List XYZLine))
    (h : driver_loop nmodes frames k = .ok outs) : outs.length = k := by
  induction k generalizing outs with
  | zero =>
    simp only [driver_loop, Except.ok.injEq] at h
    subst h
    rfl
  | succ k ih =>
    simp only [driver_loop] at h
    cases hg : generate_animation_normal_modes nmodes 0 frames with
    | error e => rw [hg] at h; cases h
    | ok anim =>
      rw [hg] at h
      cases hr : driver_loop nmodes frames k with
      | error e => rw [hr] at h; cases h
      | ok rest => rw [hr] at h; cases h; simp [ih rest hr]

lemma except_ok_of_isOk {α : Type} (e : Except PyError α) (d : α)
    (h : e.isOk = true) :
    e = .ok (match e with | .ok v => v | .error _ => d) := by
  cases e with
  | ok v => rfl
  | error _ => simp [Except.isOk, Except.toBool] at h

/-! ## Claim theorems -/

/-- C1, counterexample.  On the concrete well-formed two-block file `dataA`
(header `vibration 1` with rows `[(1,2,3)]`, header `vibration 2` with rows
`[(4,5,6)]`) the parser returns `modeDisplacements = [[(1,2,3)]]`: entry 0
is the FIRST block, not the second block `[(4,5,6)]` that the claim
predicts, so the first block is not the one discarded. -/
theorem C1_counterexample :
    WellFormed dataA ∧
    exVibs (parse_file (mkMoldenFile dataA) "NModes") = [[(1, 2, 3)]] ∧
    ¬ exVibs (parse_file (mkMoldenFile dataA) "NModes") = [[(4, 5, 6)]] :=
  ⟨by decide, by decide, by decide⟩

/-- C1, amended.  For every well-formed input file the parser appends the
blocks in file order but drops the LAST block (each block is only appended
when the next header line arrives, and no header follows the final block;
the `vibration 1` header appends nothing because the accumulator is still
empty there): `modeDisplacements = blocks.dropLast`, so
`modeDisplacements[i]` holds the `(i+1)`-th block of the file. -/
theorem C1_theorem (d : MoldenData) (hwf : WellFormed d) :
    ∃ f, parse_file (mkMoldenFile d) "NModes" = .ok f ∧
      f.vibrations = (blockRows d).dropLast ∧
      ∀ i : ℕ, i + 1 < d.blocks.length → f.vibrations[i]? = (blockRows d)[i]? := by
  refine ⟨_, parse_mk d hwf "NModes", rfl, ?_⟩
  intro i hi
  show ((blockRows d).dropLast)[i]? = (blockRows d)[i]?
  have hlen : (blockRows d).length = d.blocks.length := by
    simp [blockRows]
  rw [List.dropLast_eq_take, List.getElem?_take, if_pos (by omega)]

/-- C1, witness of the amended theorem at the concrete file `dataA`. -/
theorem C1_witness :
    WellFormed dataA ∧
    (∃ f, parse_file (mkMoldenFile dataA) "NModes" = .ok f ∧
      f.vibrations = (blockRows dataA).dropLast ∧
      ∀ i : ℕ, i + 1 < dataA.blocks.length →
        f.vibrations[i]? = (blockRows dataA)[i]?) :=
  ⟨by decide, C1_theorem dataA (by decide)⟩

/-- C2: for every well-formed input file (with at least one vibration
block) the parsed displacement count is one less than the parsed intensity
count. -/
theorem C2_theorem (d : MoldenData) (hwf : WellFormed d) (_hb : d.blocks ≠ []) :
    ∃ f, parse_file (mkMoldenFile d) "NModes" = .ok f ∧
      f.vibrations.length = f.intensities.length - 1 := by
  refine ⟨_, parse_mk d hwf "NModes", ?_⟩
  show ((blockRows d).dropLast).length = d.freqs.length - 1
  rw [List.length_dropLast]
  have hcnt := hwf.2.2.2.2.2
  simp [blockRows, hcnt]

/-- C2, witness at the concrete file `dataA`. -/
theorem C2_witness :
    WellFormed dataA ∧ dataA.blocks ≠ [] ∧
    (∃ f, parse_file (mkMoldenFile dataA) "NModes" = .ok f ∧
      f.vibrations.length = f.intensities.length - 1) :=
  ⟨by decide, by decide, C2_theorem dataA (by decide) (by decide)⟩

/-- C3, counterexample.  On the concrete well-formed file `dataA` the
parser returns 1 displacement field but 2 intensities, so the claimed
invariant `len(modeDisplacements) == len(modeIntensities)` fails. -/
theorem C3_counterexample :
    WellFormed dataA ∧
    ¬ (exVibs (parse_file (mkMoldenFile dataA) "NModes")).length =
        (exInts (parse_file (mkMoldenFile dataA) "NModes")).length :=
  ⟨by decide, by decide⟩

/-- C3, amended.  For every well-formed input file with at least one
vibration block the invariant is
`len(modeDisplacements) + 1 == len(modeIntensities)`: one displacement
field FEWER than reported modes, because the last block is dropped. -/
theorem C3_theorem (d : MoldenData) (hwf : WellFormed d) (hb : d.blocks ≠ []) :
    ∃ f, parse_file (mkMoldenFile d) "NModes" = .ok f ∧
      f.vibrations.length + 1 = f.intensities.length := by
  refine ⟨_, parse_mk d hwf "NModes", ?_⟩
  show ((blockRows d).dropLast).length + 1 = d.freqs.length
  rw [List.length_dropLast]
  have hcnt := hwf.2.2.2.2.2
  have hpos : d.blocks.length ≠ 0 := by
    intro hz
    exact hb (List.length_eq_zero.1 hz)
  simp [blockRows]
  omega

/-- C3, witness of the amended theorem at the concrete file `dataA`. -/
theorem C3_witness :
    WellFormed dataA ∧ dataA.blocks ≠ [] ∧
    (∃ f, parse_file (mkMoldenFile dataA) "NModes" = .ok f ∧
      f.vibrations.length + 1 = f.intensities.length) :=
  ⟨by decide, by decide, C3_theorem dataA (by decide) (by decide)⟩

/-- C4: for every parsed frame, valid mode index and half-width `n >= 1`,
the animator returns exactly `2*n` geometries in ascending coefficient
order, the `k`-th being `coords + ((-n + k) * 0.1) * displacement`
elementwise, and there is no geometry at position `2*n` (so no `m = +n`
frame). -/
theorem C4_theorem (frame : MolFrame) (i n : ℤ) (v : List Triple)
    (h0 : 0 ≤ i) (hv : frame.vibrations[i.toNat]? = some v) (hn : 1 ≤ n) :
    ∃ t, generate_animation_normal_modes frame i n = .ok t ∧
      t.coords.length = 2 * n.toNat ∧
      (∀ k : ℕ, k < 2 * n.toNat →
        t.coords[k]? =
          some (addScaled frame.coords v (((-n + (k : ℤ) : ℤ) : ℚ) * (1 / 10)))) ∧
      t.coords[2 * n.toNat]? = none := by
  unfold generate_animation_normal_modes
  rw [pyIndex_nonneg frame.vibrations i v h0 hv]
  have hlen : ((pyRange (-n) n).map
      (fun (mm : ℤ) => addScaled frame.coords v ((mm : ℚ) * (1 / 10)))).length =
      2 * n.toNat := by
    rw [List.length_map, pyRange_length]
    omega
  refine ⟨_, rfl, hlen, ?_, ?_⟩
  · intro k hk
    rw [List.getElem?_map, pyRange_getElem? (-n) n k (by omega)]
    rfl
  · exact List.getElem?_eq_none (by rw [hlen])

/-- C4, witness at the concrete frame `frameA` with mode 0 and `n = 1`. -/
theorem C4_witness :
    frameA.vibrations[(0 : ℤ).toNat]? = some [(1, 0, 0)] ∧
    (∃ t, generate_animation_normal_modes frameA 0 1 = .ok t ∧
      t.coords.length = 2 * (1 : ℤ).toNat ∧
      (∀ k : ℕ, k < 2 * (1 : ℤ).toNat →
        t.coords[k]? =
          some (addScaled frameA.coords [(1, 0, 0)]
            (((-(1 : ℤ) + (k : ℤ) : ℤ) : ℚ) * (1 / 10)))) ∧
      t.coords[2 * (1 : ℤ).toNat]? = none) :=
  ⟨by decide, C4_theorem frameA 0 1 [(1, 0, 0)] (by decide) (by decide) (by decide)⟩

/-- C5, counterexample.  The empty input file has none of the required
section markers, yet the parser does not fail: it returns a (partially
filled) frame with the title and all sections empty, contradicting the
claim that a missing marker raises `MalformedInputError` and that a
partially filled frame is never returned. -/
theorem C5_counterexample :
    parse_file [] "NModes" = .ok ⟨"NModes", [], [], [], []⟩ := by decide

/-- C5, amended.  Missing section markers are tolerated, not fatal: on any
input whose lines never contain the `[FREQ]` marker the parser succeeds
and returns a frame whose label, intensity and displacement sections are
empty and whose coordinates are the zero array (a partially filled frame
IS returned).  And the parser fails ONLY when a data line inside an
active section has a missing or non-numeric field: every failing run
exhibits an input line whose fields, read as the data line of an active
section, are missing or non-numeric. -/
theorem C5_theorem (na : ℕ) (lines : List Line) (t : String) :
    ((∀ l ∈ lines, hasTok l "[FREQ]" = false) →
      read_cp2k_molden_file na lines t =
        .ok ⟨t, List.replicate na (0, 0, 0), [], [], []⟩) ∧
    (∀ e : PyError, read_cp2k_molden_file na lines t = .error e →
      ∃ l ∈ lines, badDataLine l = true) := by
  constructor
  · intro hf
    unfold read_cp2k_molden_file
    rw [readAll_no_freq na lines (initState na) rfl rfl rfl hf]
    rfl
  · intro e he
    unfold read_cp2k_molden_file at he
    cases hr : readAll na (initState na) lines with
    | error e2 =>
      exact readAll_error_bad na lines (initState na) e2 hr
    | ok st =>
      rw [hr] at he
      exact Except.noConfusion he

/-- C5, witness: a concrete marker-free input parses to the empty frame,
and a concrete failing input (`[FREQ]` followed by an empty line) exhibits
a bad data line. -/
theorem C5_witness :
    read_cp2k_molden_file 2 [[wTok "hello"]] "T" =
      .ok ⟨"T", List.replicate 2 (0, 0, 0), [], [], []⟩ ∧
    ∃ l ∈ [[wTok "[FREQ]"], ([] : Line)], badDataLine l = true :=
  ⟨(C5_theorem 2 [[wTok "hello"]] "T").1 (by decide),
   (C5_theorem 2 [[wTok "[FREQ]"], ([] : Line)] "T").2 PyError.indexError
     (by decide)⟩

/-- C6: on every well-formed input the lightweight discovery pass and the
full parse agree on the dimensions: the discovered atom count equals the
number of parsed labels (and coordinate rows), and the discovered mode
count equals the number of parsed intensities. -/
theorem C6_theorem (d : MoldenData) (hwf : WellFormed d) :
    ∃ f, parse_file (mkMoldenFile d) "NModes" = .ok f ∧
      f.atomtypes.length = (get_natoms_nvib (mkMoldenFile d)).1 ∧
      f.coords.length = (get_natoms_nvib (mkMoldenFile d)).1 ∧
      f.intensities.length = (get_natoms_nvib (mkMoldenFile d)).2 := by
  refine ⟨_, parse_mk d hwf "NModes", ?_, ?_, ?_⟩ <;>
    rw [get_natoms_nvib_mk d hwf] <;> simp

/-- C6, witness at the concrete file `dataA`. -/
theorem C6_witness :
    WellFormed dataA ∧
    (∃ f, parse_file (mkMoldenFile dataA) "NModes" = .ok f ∧
      f.atomtypes.length = (get_natoms_nvib (mkMoldenFile dataA)).1 ∧
      f.coords.length = (get_natoms_nvib (mkMoldenFile dataA)).1 ∧
      f.intensities.length = (get_natoms_nvib (mkMoldenFile dataA)).2) :=
  ⟨by decide, C6_theorem dataA (by decide)⟩

/-- C8: for every trajectory (with a nonempty label list) the writer emits
one record per geometry, in order, each consisting of the atom-count line,
the title line, then one line per atom carrying the (cyclically reused)
label and the three components each multiplied by `scaleF = 1.3/2.5`; the
scaling appears only in the emitted lines — the trajectory record itself
is immutable in this embedding and is not changed by writing. -/
theorem C8_theorem (tup : AnimTraj) (h : tup.atomtypes ≠ []) :
    write_multiple_XYZ_file tup =
      (tup.coords.map (writeRecordSpec tup.title tup.atomtypes)).flatten :=
  write_eq_spec tup h

/-- C8, witness at the concrete trajectory `trajA`. -/
theorem C8_witness :
    trajA.atomtypes ≠ [] ∧
    write_multiple_XYZ_file trajA =
      (trajA.coords.map (writeRecordSpec trajA.title trajA.atomtypes)).flatten :=
  ⟨by decide, C8_theorem trajA (by decide)⟩

/-- C9: when the label list is nonempty but shorter than the number of
atoms in a geometry, the writer still emits one line per atom, reusing the
labels cyclically from the start (`labels[j % len(labels)]` for atom `j`)
instead of failing. -/
theorem C9_theorem (title : String) (labels : List String) (s : List Triple)
    (h0 : labels ≠ []) (_hlt : labels.length < s.length) :
    write_multiple_XYZ_file ⟨title, [s], labels⟩ =
      XYZLine.countLine s.length :: XYZLine.titleLine title ::
        (List.range s.length).map (fun j =>
          XYZLine.atomLine (labels.getD (j % labels.length) "")
            ((s.getD j (0, 0, 0)).1 * scaleF)
            ((s.getD j (0, 0, 0)).2.1 * scaleF)
            ((s.getD j (0, 0, 0)).2.2 * scaleF)) ∧
    (write_multiple_XYZ_file ⟨title, [s], labels⟩).length = s.length + 2 := by
  have h := write_eq_spec ⟨title, [s], labels⟩ h0
  constructor
  · rw [h]
    simp [writeRecordSpec]
  · rw [h]
    simp [writeRecordSpec]

/-- C9, witness: one geometry of two atoms with a single label. -/
theorem C9_witness :
    (["A"] : List String) ≠ [] ∧
    (["A"] : List String).length < ([(1, 2, 3), (4, 5, 6)] : List Triple).length ∧
    (write_multiple_XYZ_file ⟨"T", [[(1, 2, 3), (4, 5, 6)]], ["A"]⟩ =
      XYZLine.countLine ([(1, 2, 3), (4, 5, 6)] : List Triple).length ::
        XYZLine.titleLine "T" ::
        (List.range ([(1, 2, 3), (4, 5, 6)] : List Triple).length).map (fun j =>
          XYZLine.atomLine ((["A"] : List String).getD (j % (["A"] : List String).length) "")
            ((([(1, 2, 3), (4, 5, 6)] : List Triple).getD j (0, 0, 0)).1 * scaleF)
            ((([(1, 2, 3), (4, 5, 6)] : List Triple).getD j (0, 0, 0)).2.1 * scaleF)
            ((([(1, 2, 3), (4, 5, 6)] : List Triple).getD j (0, 0, 0)).2.2 * scaleF)) ∧
      (write_multiple_XYZ_file ⟨"T", [[(1, 2, 3), (4, 5, 6)]], ["A"]⟩).length =
        ([(1, 2, 3), (4, 5, 6)] : List Triple).length + 2) :=
  ⟨by decide, by decide,
    C9_theorem "T" ["A"] [(1, 2, 3), (4, 5, 6)] (by decide) (by decide)⟩

/-- C10: whenever the driver's main loop completes, every output file
contains the animation of mode index 0 (the loop passes the constant `0`,
not the loop variable), there is one output per discovered vibration, and
all the outputs are identical. -/
theorem C10_theorem (lines : List Line) (frames : ℤ)
    (outs : List (List XYZLine))
    (h : driver_outputs lines frames = .ok outs) :
    outs.length = (get_natoms_nvib lines).2 ∧
    (∀ o ∈ outs, ∃ nmodes anim,
      parse_file lines "NModes" = .ok nmodes ∧
      generate_animation_normal_modes nmodes 0 frames = .ok anim ∧
      o = write_multiple_XYZ_file anim) ∧
    ∀ o1 ∈ outs, ∀ o2 ∈ outs, o1 = o2 := by
  unfold driver_outputs at h
  cases hp : parse_file lines "NModes" with
  | error e => rw [hp] at h; cases h
  | ok nmodes =>
    rw [hp] at h
    refine ⟨driver_loop_length nmodes frames _ outs h, ?_, ?_⟩
    · intro o ho
      rcases driver_loop_mem nmodes frames _ outs h o ho with ⟨anim, hg, hoeq⟩
      exact ⟨nmodes, anim, rfl, hg, hoeq⟩
    · intro o1 h1 o2 h2
      rcases driver_loop_mem nmodes frames _ outs h o1 h1 with ⟨a1, hg1, e1⟩
      rcases driver_loop_mem nmodes frames _ outs h o2 h2 with ⟨a2, hg2, e2⟩
      rw [hg1] at hg2
      cases hg2
      rw [e1, e2]

/-- C10, witness: on the concrete two-mode file `dataA` the driver produces
a list of outputs that are all equal (every file holds the same mode-0
trajectory): the output list is a replication of its own head. -/
theorem C10_witness :
    exOuts (driver_outputs (mkMoldenFile dataA) 1) =
      List.replicate (exOuts (driver_outputs (mkMoldenFile dataA) 1)).length
        ((exOuts (driver_outputs (mkMoldenFile dataA) 1)).headD []) := by
  have hok : (driver_outputs (mkMoldenFile dataA) 1).isOk = true := by decide
  have heq : driver_outputs (mkMoldenFile dataA) 1 =
      .ok (exOuts (driver_outputs (mkMoldenFile dataA) 1)) :=
    except_ok_of_isOk (driver_outputs (mkMoldenFile dataA) 1) [] hok
  have hall := (C10_theorem (mkMoldenFile dataA) 1 _ heq).2.2
  apply List.eq_replicate_of_mem
  intro b hb
  have hhead : (exOuts (driver_outputs (mkMoldenFile dataA) 1)).headD [] ∈
      exOuts (driver_outputs (mkMoldenFile dataA) 1) := by
    cases hx : exOuts (driver_outputs (mkMoldenFile dataA) 1) with
    | nil => rw [hx] at hb; cases hb
    | cons a t => simp [hx]
  exact hall b hb _ hhead
